import Mathlib

/-!
Shallow embedding of the collector/snapshot subsystem of
`src/nvidia_exporter.go` (an NVML Prometheus exporter).

Modelling choices, matching the source:
* A `Device` carries its identity (`i`, `DeviceUUID`, `DeviceName`) together
  with the outcome of its four telemetry queries.  Each query is an `Option`:
  `some` is a successful result, `none` is the `err != nil` branch of the Go
  code.  This is the boundary of §6 of the spec: the device handle is an
  external collaborator, queried synchronously.
* All raw telemetry values are integers at the collaborator boundary; the Go
  code stores them via `float64(...)` into gauges.  At the ranges involved the
  conversion is exact (spec §4.2 numeric semantics), so gauge values are
  modelled as `Int`.
* A Prometheus `GaugeVec` keyed by label values is modelled as an association
  list from the label-value tuple to the gauge value; `WithLabelValues(...).Set`
  is an upsert (`setEntry`), `Reset` empties the list.  Go map iteration order
  is unspecified, so the model fixes a canonical order; all order-insensitive
  claims are unaffected.
* `sync.RWMutex` and the channel plumbing of `prometheus.Collector` are not
  modelled; `Collect` is the sequential body executed under the lock, and
  `collectOutput` is the list of metrics it sends on the channel.
-/

/-- Help text and label schema of one metric of the catalog
(`VecInfo` in the source). -/
structure VecInfo where
  help : String
  labels : List String
deriving DecidableEq, Repr

/-- The eight metric names of the fixed catalog `gaugeMetrics`. -/
inductive MetricName where
  | power_watts
  | gpu_percent
  | memory_free
  | memory_total
  | memory_used
  | memory_percent
  | temperature_fahrenheit
  | temperature_celsius
deriving DecidableEq, Repr

/-- The catalog entries, in a canonical order (the Go source stores them in a
map, whose iteration order is unspecified). -/
def metricNames : List MetricName :=
  [MetricName.power_watts, MetricName.gpu_percent, MetricName.memory_free,
   MetricName.memory_total, MetricName.memory_used, MetricName.memory_percent,
   MetricName.temperature_fahrenheit, MetricName.temperature_celsius]

/-- The fixed metric catalog `gaugeMetrics` of the source: help text and label
schema per metric name. -/
def gaugeMetrics : MetricName → VecInfo
  | MetricName.power_watts =>
      { help := "Power Usage of an NVIDIA GPU in Watts",
        labels := ["device_id", "device_uuid", "device_name"] }
  | MetricName.gpu_percent =>
      { help := "Percent of GPU Utilized",
        labels := ["device_id", "device_uuid", "device_name"] }
  | MetricName.memory_free =>
      { help := "Number of bytes free in the GPU Memory",
        labels := ["device_id", "device_uuid", "device_name"] }
  | MetricName.memory_total =>
      { help := "Total bytes of the GPU's memory",
        labels := ["device_id", "device_uuid", "device_name"] }
  | MetricName.memory_used =>
      { help := "Total number of bytes used in the GPU Memory",
        labels := ["device_id", "device_uuid", "device_name"] }
  | MetricName.memory_percent =>
      { help := "Percent of GPU Memory Utilized",
        labels := ["device_id", "device_uuid", "device_name"] }
  | MetricName.temperature_fahrenheit =>
      { help := "GPU Temperature in Fahrenheit",
        labels := ["device_id", "device_uuid", "device_name"] }
  | MetricName.temperature_celsius =>
      { help := "GPU Temperature in Celsius",
        labels := ["device_id", "device_uuid", "device_name"] }

/-- Memory information returned by `GetMemoryInfo` (`NVMLMemory`): free, total
and used bytes. -/
structure NVMLMemory where
  Free : Int
  Total : Int
  Used : Int
deriving DecidableEq, Repr

/-- One enumerated device: its identity (`i`, `DeviceUUID`, `DeviceName`) and
the outcome of each telemetry query in this cycle (`none` models the
`err != nil` branch of the corresponding Go call). -/
structure Device where
  i : Nat
  DeviceUUID : String
  DeviceName : String
  utilization : Option (Int × Int)
  temperature : Option (Int × Int)
  powerUsage : Option Int
  memoryInfo : Option NVMLMemory
deriving DecidableEq, Repr

/-- Boundary query `GetUtilization` returning (gpuPercent, memoryPercent). -/
def Device.GetUtilization (d : Device) : Option (Int × Int) := d.utilization

/-- Boundary query `GetTemperature` returning (tempF, tempC). -/
def Device.GetTemperature (d : Device) : Option (Int × Int) := d.temperature

/-- Boundary query `GetPowerUsage` returning watts. -/
def Device.GetPowerUsage (d : Device) : Option Int := d.powerUsage

/-- Boundary query `GetMemoryInfo` returning an `NVMLMemory`. -/
def Device.GetMemoryInfo (d : Device) : Option NVMLMemory := d.memoryInfo

/-- The label-value triple the source attaches to every device-scoped write:
`strconv.Itoa(device.i), device.DeviceUUID, device.DeviceName`. -/
def labelValues (d : Device) : List String :=
  [toString d.i, d.DeviceUUID, d.DeviceName]

/-- One entry of a gauge vector: label-value tuple and gauge value. -/
abbrev Entry := List String × Int

/-- A gauge vector (`prometheus.GaugeVec`): association list from label-value
tuples to values. -/
abbrev Series := List Entry

/-- Upsert of `WithLabelValues(ls...).Set(v)`: replace the entry keyed by `ls`
if present, otherwise append a fresh entry. -/
def setEntry : Series → List String → Int → Series
  | [], ls, v => [(ls, v)]
  | en :: rest, ls, v =>
      if en.1 = ls then (ls, v) :: rest else en :: setEntry rest ls v

/-- The exporter state: the `up` health gauge, the map from metric name to
gauge vector, and the device list enumerated once at startup. -/
structure Exporter where
  up : Int
  gauges : MetricName → Series
  devices : List Device

/-- A `gaugeVec.WithLabelValues(ls...).Set(v)` on metric `m` of the exporter
registry. -/
def Exporter.setValue (e : Exporter) (m : MetricName) (ls : List String) (v : Int) :
    Exporter :=
  { e with gauges := fun m2 => if m2 = m then setEntry (e.gauges m2) ls v else e.gauges m2 }

/-- The reset loop of `Collect`: `for _, vec := range e.gauges { vec.Reset() }`.
It clears every gauge vector and touches neither `up` nor the device list. -/
def resetGauges (e : Exporter) : Exporter :=
  { e with gauges := fun _ => [] }

/-- The per-device loop body of `GetTelemetryFromNVML`, recursing over the
remaining devices.  Each failing query sets `up` to 0 and returns (aborting
the whole cycle); each successful query writes its gauge entries in source
order. -/
def telemetryLoop (e : Exporter) : List Device → Exporter
  | [] => e
  | d :: rest =>
    match d.GetUtilization with
    | none => { e with up := 0 }
    | some (gpuPercent, memoryPercent) =>
      let e1 := (e.setValue MetricName.gpu_percent (labelValues d) gpuPercent).setValue
        MetricName.memory_percent (labelValues d) memoryPercent
      match d.GetTemperature with
      | none => { e1 with up := 0 }
      | some (tempF, tempC) =>
        let e2 := (e1.setValue MetricName.temperature_celsius (labelValues d) tempC).setValue
          MetricName.temperature_fahrenheit (labelValues d) tempF
        match d.GetPowerUsage with
        | none => { e2 with up := 0 }
        | some powerUsage =>
          let e3 := e2.setValue MetricName.power_watts (labelValues d) powerUsage
          match d.GetMemoryInfo with
          | none => { e3 with up := 0 }
          | some gpuMem =>
            let e4 := ((e3.setValue MetricName.memory_free (labelValues d) gpuMem.Free).setValue
              MetricName.memory_total (labelValues d) gpuMem.Total).setValue
              MetricName.memory_used (labelValues d) gpuMem.Used
            telemetryLoop e4 rest

/-- `GetTelemetryFromNVML`: run the device loop over `e.devices`. -/
def GetTelemetryFromNVML (e : Exporter) : Exporter :=
  telemetryLoop e e.devices

/-- The state transformation of `Collect` (the body executed under the mutex):
reset every gauge vector, set `up` optimistically to 1, then collect
telemetry. -/
def Collect (e : Exporter) : Exporter :=
  GetTelemetryFromNVML { resetGauges e with up := 1 }

/-- One metric sent on the `Collect` channel: either a gauge-vector entry or
the `up` gauge. -/
inductive Msg where
  | gauge (m : MetricName) (ls : List String) (v : Int)
  | up (v : Int)
deriving DecidableEq, Repr

/-- The metrics `Collect` sends on its channel: every entry of every gauge
vector, then (by the deferred send) the `up` gauge — unconditionally. -/
def collectOutput (e : Exporter) : List Msg :=
  ((metricNames.map fun m =>
      ((Collect e).gauges m).map fun en => Msg.gauge m en.1 en.2)).flatten
    ++ [Msg.up (Collect e).up]

/-- The sequence of values assigned to the `up` gauge by
`GetTelemetryFromNVML`: a single `0` at the first failing query, nothing when
every query succeeds. -/
def upSetsFromNVML : List Device → List Int
  | [] => []
  | d :: rest =>
    match d.GetUtilization with
    | none => [0]
    | some _ =>
      match d.GetTemperature with
      | none => [0]
      | some _ =>
        match d.GetPowerUsage with
        | none => [0]
        | some _ =>
          match d.GetMemoryInfo with
          | none => [0]
          | some _ => upSetsFromNVML rest

/-- The sequence of values assigned to `up` during one `Collect` cycle: the
optimistic `1` right after the reset, then whatever `GetTelemetryFromNVML`
assigns. -/
def cycleUpTrace (devices : List Device) : List Int :=
  1 :: upSetsFromNVML devices

/-- Whether every query of this device succeeds (the device loop continues to
the next device exactly when this holds). -/
def deviceSucceeds (d : Device) : Bool :=
  d.utilization.isSome && d.temperature.isSome &&
    d.powerUsage.isSome && d.memoryInfo.isSome

/-- The entry the cycle writes for device `d` into metric `m`, when the
corresponding query succeeds: label triple and queried value, read off the
eight `Set` calls of the source. -/
def deviceEntry (d : Device) (m : MetricName) : Option Entry :=
  match m with
  | MetricName.gpu_percent => d.utilization.map fun u => (labelValues d, u.1)
  | MetricName.memory_percent => d.utilization.map fun u => (labelValues d, u.2)
  | MetricName.temperature_fahrenheit => d.temperature.map fun t => (labelValues d, t.1)
  | MetricName.temperature_celsius => d.temperature.map fun t => (labelValues d, t.2)
  | MetricName.power_watts => d.powerUsage.map fun w => (labelValues d, w)
  | MetricName.memory_free => d.memoryInfo.map fun mi => (labelValues d, mi.Free)
  | MetricName.memory_total => d.memoryInfo.map fun mi => (labelValues d, mi.Total)
  | MetricName.memory_used => d.memoryInfo.map fun mi => (labelValues d, mi.Used)

/-- One primitive mutation of the registry state: a gauge-vector upsert or an
assignment to `up`. -/
inductive Op where
  | set (m : MetricName) (ls : List String) (v : Int)
  | setUp (v : Int)
deriving DecidableEq, Repr

/-- Apply one primitive mutation. -/
def applyOp (e : Exporter) : Op → Exporter
  | Op.set m ls v => e.setValue m ls v
  | Op.setUp v => { e with up := v }

/-- Run a list of primitive mutations in order. -/
def runOps (e : Exporter) : List Op → Exporter
  | [] => e
  | o :: rest => runOps (applyOp e o) rest

/-- The mutations the device loop performs for one device, in source order,
ending in `setUp 0` at the first failing query. -/
def deviceOps (d : Device) : List Op :=
  match d.GetUtilization with
  | none => [Op.setUp 0]
  | some (gpuPercent, memoryPercent) =>
    [Op.set MetricName.gpu_percent (labelValues d) gpuPercent,
     Op.set MetricName.memory_percent (labelValues d) memoryPercent] ++
    match d.GetTemperature with
    | none => [Op.setUp 0]
    | some (tempF, tempC) =>
      [Op.set MetricName.temperature_celsius (labelValues d) tempC,
       Op.set MetricName.temperature_fahrenheit (labelValues d) tempF] ++
      match d.GetPowerUsage with
      | none => [Op.setUp 0]
      | some powerUsage =>
        [Op.set MetricName.power_watts (labelValues d) powerUsage] ++
        match d.GetMemoryInfo with
        | none => [Op.setUp 0]
        | some gpuMem =>
          [Op.set MetricName.memory_free (labelValues d) gpuMem.Free,
           Op.set MetricName.memory_total (labelValues d) gpuMem.Total,
           Op.set MetricName.memory_used (labelValues d) gpuMem.Used]

/-- The mutations of one whole cycle of the device loop: each device's
mutations in enumeration order, stopping after the first device that fails. -/
def cycleOps : List Device → List Op
  | [] => []
  | d :: rest => deviceOps d ++ (if deviceSucceeds d then cycleOps rest else [])

/-! ### Basic lemmas about the registry primitives -/

theorem setValue_gauges_eq (e : Exporter) (m : MetricName) (ls : List String) (v : Int) :
    (e.setValue m ls v).gauges m = setEntry (e.gauges m) ls v := by
  simp [Exporter.setValue]

theorem setValue_gauges_ne (e : Exporter) {m m2 : MetricName} (ls : List String) (v : Int)
    (h : m2 ≠ m) : (e.setValue m ls v).gauges m2 = e.gauges m2 := by
  simp [Exporter.setValue, h]

theorem setValue_up (e : Exporter) (m : MetricName) (ls : List String) (v : Int) :
    (e.setValue m ls v).up = e.up := rfl

theorem setValue_devices (e : Exporter) (m : MetricName) (ls : List String) (v : Int) :
    (e.setValue m ls v).devices = e.devices := rfl

theorem mem_setEntry_self (s : Series) (ls : List String) (v : Int) :
    (ls, v) ∈ setEntry s ls v := by
  induction s with
  | nil => simp [setEntry]
  | cons en rest ih =>
    by_cases h : en.1 = ls
    · simp [setEntry, h]
    · simp only [setEntry, if_neg h, List.mem_cons]
      exact Or.inr ih

theorem mem_of_mem_setEntry {s : Series} {ls : List String} {v : Int} {en : Entry}
    (h : en ∈ setEntry s ls v) : en ∈ s ∨ en = (ls, v) := by
  induction s with
  | nil => simpa [setEntry] using h
  | cons en2 rest ih =>
    by_cases h2 : en2.1 = ls
    · rcases (by simpa [setEntry, h2] using h) with h3 | h3
      · exact Or.inr (by simp [h3])
      · exact Or.inl (List.mem_cons_of_mem _ h3)
    · rcases (by simpa [setEntry, h2] using h) with h3 | h3
      · exact Or.inl (by simp [h3])
      · rcases ih h3 with h4 | h4
        · exact Or.inl (List.mem_cons_of_mem _ h4)
        · exact Or.inr h4

theorem setEntry_of_not_mem {s : Series} {ls : List String} (v : Int)
    (h : ∀ en ∈ s, en.1 ≠ ls) : setEntry s ls v = s ++ [(ls, v)] := by
  induction s with
  | nil => simp [setEntry]
  | cons en rest ih =>
    have hne : en.1 ≠ ls := h en (List.mem_cons_self _ _)
    simp only [setEntry, if_neg hne, List.cons_append, List.cons.injEq, true_and]
    exact ih fun en2 h2 => h en2 (List.mem_cons_of_mem _ h2)

theorem keys_setEntry (s : Series) (ls : List String) (v : Int) :
    (setEntry s ls v).map Prod.fst =
      if ls ∈ s.map Prod.fst then s.map Prod.fst else s.map Prod.fst ++ [ls] := by
  induction s with
  | nil => simp [setEntry]
  | cons en rest ih =>
    by_cases h : en.1 = ls
    · simp [setEntry, h]
    · have h2 : ¬ ls = en.1 := fun h3 => h h3.symm
      by_cases h3 : ls ∈ rest.map Prod.fst <;>
        simp [setEntry, if_neg h, ih, h2, h3]

theorem nodup_keys_setEntry {s : Series} (ls : List String) (v : Int)
    (h : (s.map Prod.fst).Nodup) : ((setEntry s ls v).map Prod.fst).Nodup := by
  rw [keys_setEntry]
  by_cases h2 : ls ∈ s.map Prod.fst
  · simpa [h2]
  · simpa [h2, List.nodup_append] using h

/-! ### The device loop as a sequence of primitive mutations -/

theorem runOps_append (e : Exporter) (xs ys : List Op) :
    runOps e (xs ++ ys) = runOps (runOps e xs) ys := by
  induction xs generalizing e with
  | nil => rfl
  | cons o rest ih => simp [runOps, ih]

theorem applyOp_devices (e : Exporter) (o : Op) : (applyOp e o).devices = e.devices := by
  cases o <;> rfl

theorem runOps_devices (e : Exporter) (ops : List Op) : (runOps e ops).devices = e.devices := by
  induction ops generalizing e with
  | nil => rfl
  | cons o rest ih => simp [runOps, ih, applyOp_devices]

theorem telemetryLoop_eq_runOps (ds : List Device) : ∀ e : Exporter,
    telemetryLoop e ds = runOps e (cycleOps ds) := by
  induction ds with
  | nil => intro e; rfl
  | cons d rest ih =>
    intro e
    rcases hu : d.utilization with _ | ⟨g, p⟩
    · simp [telemetryLoop, cycleOps, deviceOps, deviceSucceeds, Device.GetUtilization, hu,
        runOps, applyOp]
    · rcases ht : d.temperature with _ | ⟨f, c⟩
      · simp [telemetryLoop, cycleOps, deviceOps, deviceSucceeds, Device.GetUtilization,
          Device.GetTemperature, hu, ht, runOps, applyOp]
      · rcases hw : d.powerUsage with _ | w
        · simp [telemetryLoop, cycleOps, deviceOps, deviceSucceeds, Device.GetUtilization,
            Device.GetTemperature, Device.GetPowerUsage, hu, ht, hw, runOps, applyOp]
        · rcases hm : d.memoryInfo with _ | mi
          · simp [telemetryLoop, cycleOps, deviceOps, deviceSucceeds, Device.GetUtilization,
              Device.GetTemperature, Device.GetPowerUsage, Device.GetMemoryInfo,
              hu, ht, hw, hm, runOps, applyOp]
          · have hs : deviceSucceeds d = true := by
              simp [deviceSucceeds, hu, ht, hw, hm]
            simp only [cycleOps, hs, if_pos, runOps_append]
            simp [telemetryLoop, deviceOps, Device.GetUtilization, Device.GetTemperature,
              Device.GetPowerUsage, Device.GetMemoryInfo, hu, ht, hw, hm, runOps, applyOp, ih]

theorem deviceEntry_fst {d : Device} {m : MetricName} {en : Entry}
    (h : deviceEntry d m = some en) : en.1 = labelValues d := by
  cases m <;>
    · simp only [deviceEntry, Option.map_eq_some'] at h
      obtain ⟨x, _, h2⟩ := h
      simp [← h2]

theorem deviceOps_gauges {d : Device} {g p f c w : Int} {mi : NVMLMemory}
    (hu : d.utilization = some (g, p)) (ht : d.temperature = some (f, c))
    (hw : d.powerUsage = some w) (hm : d.memoryInfo = some mi)
    (e : Exporter) (m : MetricName) :
    ∃ v, deviceEntry d m = some (labelValues d, v) ∧
      (runOps e (deviceOps d)).gauges m = setEntry (e.gauges m) (labelValues d) v := by
  cases m
  case gpu_percent =>
    refine ⟨g, by simp [deviceEntry, hu], ?_⟩
    simp [deviceOps, Device.GetUtilization, Device.GetTemperature,
      Device.GetPowerUsage, Device.GetMemoryInfo, hu, ht, hw, hm, runOps, applyOp,
      Exporter.setValue]
  case memory_percent =>
    refine ⟨p, by simp [deviceEntry, hu], ?_⟩
    simp [deviceOps, Device.GetUtilization, Device.GetTemperature,
      Device.GetPowerUsage, Device.GetMemoryInfo, hu, ht, hw, hm, runOps, applyOp,
      Exporter.setValue]
  case temperature_fahrenheit =>
    refine ⟨f, by simp [deviceEntry, ht], ?_⟩
    simp [deviceOps, Device.GetUtilization, Device.GetTemperature,
      Device.GetPowerUsage, Device.GetMemoryInfo, hu, ht, hw, hm, runOps, applyOp,
      Exporter.setValue]
  case temperature_celsius =>
    refine ⟨c, by simp [deviceEntry, ht], ?_⟩
    simp [deviceOps, Device.GetUtilization, Device.GetTemperature,
      Device.GetPowerUsage, Device.GetMemoryInfo, hu, ht, hw, hm, runOps, applyOp,
      Exporter.setValue]
  case power_watts =>
    refine ⟨w, by simp [deviceEntry, hw], ?_⟩
    simp [deviceOps, Device.GetUtilization, Device.GetTemperature,
      Device.GetPowerUsage, Device.GetMemoryInfo, hu, ht, hw, hm, runOps, applyOp,
      Exporter.setValue]
  case memory_free =>
    refine ⟨mi.Free, by simp [deviceEntry, hm], ?_⟩
    simp [deviceOps, Device.GetUtilization, Device.GetTemperature,
      Device.GetPowerUsage, Device.GetMemoryInfo, hu, ht, hw, hm, runOps, applyOp,
      Exporter.setValue]
  case memory_total =>
    refine ⟨mi.Total, by simp [deviceEntry, hm], ?_⟩
    simp [deviceOps, Device.GetUtilization, Device.GetTemperature,
      Device.GetPowerUsage, Device.GetMemoryInfo, hu, ht, hw, hm, runOps, applyOp,
      Exporter.setValue]
  case memory_used =>
    refine ⟨mi.Used, by simp [deviceEntry, hm], ?_⟩
    simp [deviceOps, Device.GetUtilization, Device.GetTemperature,
      Device.GetPowerUsage, Device.GetMemoryInfo, hu, ht, hw, hm, runOps, applyOp,
      Exporter.setValue]

theorem deviceOps_up_of_success {d : Device} {g p f c w : Int} {mi : NVMLMemory}
    (hu : d.utilization = some (g, p)) (ht : d.temperature = some (f, c))
    (hw : d.powerUsage = some w) (hm : d.memoryInfo = some mi) (e : Exporter) :
    (runOps e (deviceOps d)).up = e.up := by
  simp [deviceOps, Device.GetUtilization, Device.GetTemperature, Device.GetPowerUsage,
    Device.GetMemoryInfo, hu, ht, hw, hm, runOps, applyOp, Exporter.setValue]

theorem deviceSucceeds_elim {d : Device} (hs : deviceSucceeds d = true) :
    ∃ g p f c w mi, d.utilization = some (g, p) ∧ d.temperature = some (f, c) ∧
      d.powerUsage = some w ∧ d.memoryInfo = some mi := by
  simp only [deviceSucceeds, Bool.and_eq_true, Option.isSome_iff_exists] at hs
  obtain ⟨⟨⟨⟨u, hu⟩, ⟨t, ht⟩⟩, ⟨w, hw⟩⟩, ⟨mi, hm⟩⟩ := hs
  exact ⟨u.1, u.2, t.1, t.2, w, mi, by simpa using hu, by simpa using ht, hw, hm⟩

theorem cycleOps_append_of_success {xs : List Device} (ys : List Device)
    (h : ∀ d ∈ xs, deviceSucceeds d = true) :
    cycleOps (xs ++ ys) = cycleOps xs ++ cycleOps ys := by
  induction xs with
  | nil => simp [cycleOps]
  | cons d rest ih =>
    have hd : deviceSucceeds d = true := h d (List.mem_cons_self _ _)
    have h2 : ∀ d2 ∈ rest, deviceSucceeds d2 = true :=
      fun d2 h3 => h d2 (List.mem_cons_of_mem _ h3)
    simp [cycleOps, hd, ih h2]

theorem runOps_cycleOps_success (ds : List Device) : ∀ e : Exporter,
    (∀ d ∈ ds, deviceSucceeds d = true) →
    ((ds.map labelValues).Nodup) →
    (∀ m, ∀ en ∈ e.gauges m, en.1 ∉ ds.map labelValues) →
    (runOps e (cycleOps ds)).up = e.up ∧
      ∀ m, (runOps e (cycleOps ds)).gauges m =
        e.gauges m ++ ds.filterMap (fun d => deviceEntry d m) := by
  induction ds with
  | nil => intro e _ _ _; simp [cycleOps, runOps]
  | cons d rest ih =>
    intro e hsucc hnodup hdisj
    have hd : deviceSucceeds d = true := hsucc d (List.mem_cons_self _ _)
    have hrest : ∀ d2 ∈ rest, deviceSucceeds d2 = true :=
      fun d2 h3 => hsucc d2 (List.mem_cons_of_mem _ h3)
    obtain ⟨g, p, f, c, w, mi, hu, ht, hw, hm⟩ := deviceSucceeds_elim hd
    have hnodup2 : (rest.map labelValues).Nodup := (List.nodup_cons.mp hnodup).2
    have hdmem : labelValues d ∉ rest.map labelValues := (List.nodup_cons.mp hnodup).1
    have hstep : cycleOps (d :: rest) = deviceOps d ++ cycleOps rest := by
      simp [cycleOps, hd]
    set e2 := runOps e (deviceOps d) with he2
    have hg2 : ∀ m, ∃ v, deviceEntry d m = some (labelValues d, v) ∧
        e2.gauges m = e.gauges m ++ [(labelValues d, v)] := by
      intro m
      obtain ⟨v, hv, hg⟩ := deviceOps_gauges hu ht hw hm e m
      refine ⟨v, hv, ?_⟩
      rw [hg, setEntry_of_not_mem]
      intro en h2 h3
      exact hdisj m en h2 (by simp [h3])
    have hdisj2 : ∀ m, ∀ en ∈ e2.gauges m, en.1 ∉ rest.map labelValues := by
      intro m en h2
      obtain ⟨v, _, hg⟩ := hg2 m
      rw [hg] at h2
      rcases List.mem_append.mp h2 with h3 | h3
      · intro h4
        exact hdisj m en h3 (List.mem_cons_of_mem _ h4)
      · have h4 : en = (labelValues d, v) := by simpa using h3
        rw [h4]
        exact hdmem
    obtain ⟨hup, hgs⟩ := ih e2 hrest hnodup2 hdisj2
    rw [hstep, runOps_append, ← he2]
    constructor
    · rw [hup, he2, deviceOps_up_of_success hu ht hw hm]
    · intro m
      obtain ⟨v, hv, hg⟩ := hg2 m
      rw [hgs m, hg]
      simp [List.filterMap_cons, hv]

theorem runOps_labels (P : List String → Prop) (ops : List Op) : ∀ e : Exporter,
    (∀ o ∈ ops, ∀ m ls v, o = Op.set m ls v → P ls) →
    (∀ m, ∀ en ∈ e.gauges m, P en.1) →
    ∀ m, ∀ en ∈ (runOps e ops).gauges m, P en.1 := by
  induction ops with
  | nil => intro e _ he; exact he
  | cons o rest ih =>
    intro e hops he
    refine ih (applyOp e o) (fun o2 h2 => hops o2 (List.mem_cons_of_mem _ h2)) ?_
    intro m en hmem
    cases o with
    | setUp v => exact he m en hmem
    | set m2 ls v =>
      by_cases h : m = m2
      · subst h
        rw [applyOp, setValue_gauges_eq] at hmem
        rcases mem_of_mem_setEntry hmem with h2 | h2
        · exact he m en h2
        · rw [h2]
          exact hops (Op.set m ls v) (List.mem_cons_self _ _) m ls v rfl
      · rw [applyOp, setValue_gauges_ne _ _ _ h] at hmem
        exact he m en hmem

theorem runOps_nodup_keys (ops : List Op) : ∀ e : Exporter,
    (∀ m, ((e.gauges m).map Prod.fst).Nodup) →
    ∀ m, (((runOps e ops).gauges m).map Prod.fst).Nodup := by
  induction ops with
  | nil => intro e he; exact he
  | cons o rest ih =>
    intro e he
    refine ih (applyOp e o) ?_
    intro m
    cases o with
    | setUp v => exact he m
    | set m2 ls v =>
      by_cases h : m = m2
      · subst h
        rw [applyOp, setValue_gauges_eq]
        exact nodup_keys_setEntry ls v (he m)
      · rw [applyOp, setValue_gauges_ne _ _ _ h]
        exact he m

theorem deviceOps_labels {d : Device} {o : Op} (h : o ∈ deviceOps d) :
    ∀ m ls v, o = Op.set m ls v → ls = labelValues d := by
  intro m ls v ho
  subst ho
  rcases hu : d.utilization with _ | ⟨g, p⟩
  · simp [deviceOps, Device.GetUtilization, hu] at h
  · rcases ht : d.temperature with _ | ⟨f, c⟩
    · simp only [deviceOps, Device.GetUtilization, Device.GetTemperature, hu, ht,
        List.cons_append, List.nil_append, List.mem_cons, List.not_mem_nil, or_false] at h
      rcases h with h | h | h <;> simp_all
    · rcases hw : d.powerUsage with _ | w
      · simp only [deviceOps, Device.GetUtilization, Device.GetTemperature,
          Device.GetPowerUsage, hu, ht, hw, List.cons_append, List.nil_append,
          List.mem_cons, List.not_mem_nil, or_false] at h
        rcases h with h | h | h | h | h <;> simp_all
      · rcases hm : d.memoryInfo with _ | mi
        · simp only [deviceOps, Device.GetUtilization, Device.GetTemperature,
            Device.GetPowerUsage, Device.GetMemoryInfo, hu, ht, hw, hm, List.cons_append,
            List.nil_append, List.mem_cons, List.not_mem_nil, or_false] at h
          rcases h with h | h | h | h | h | h <;> simp_all
        · simp only [deviceOps, Device.GetUtilization, Device.GetTemperature,
            Device.GetPowerUsage, Device.GetMemoryInfo, hu, ht, hw, hm, List.cons_append,
            List.nil_append, List.mem_cons, List.not_mem_nil, or_false] at h
          rcases h with h | h | h | h | h | h | h | h <;> simp_all

theorem cycleOps_labels (ds : List Device) : ∀ o ∈ cycleOps ds, ∀ m ls v,
    o = Op.set m ls v → ∃ d, d ∈ ds ∧ ls = labelValues d := by
  induction ds with
  | nil => simp [cycleOps]
  | cons d rest ih =>
    intro o ho m ls v ho2
    simp only [cycleOps] at ho
    rcases List.mem_append.mp ho with h | h
    · exact ⟨d, List.mem_cons_self _ _, deviceOps_labels h m ls v ho2⟩
    · by_cases hs : deviceSucceeds d = true
      · rw [if_pos hs] at h
        obtain ⟨d2, hd2, h2⟩ := ih o h m ls v ho2
        exact ⟨d2, List.mem_cons_of_mem _ hd2, h2⟩
      · rw [if_neg hs] at h
        simp at h

theorem telemetryLoop_up (ds : List Device) : ∀ e : Exporter,
    (telemetryLoop e ds).up = if upSetsFromNVML ds = [] then e.up else 0 := by
  induction ds with
  | nil => intro e; simp [telemetryLoop, upSetsFromNVML]
  | cons d rest ih =>
    intro e
    rcases hu : d.utilization with _ | ⟨g, p⟩
    · simp [telemetryLoop, upSetsFromNVML, Device.GetUtilization, hu]
    · rcases ht : d.temperature with _ | ⟨f, c⟩
      · simp [telemetryLoop, upSetsFromNVML, Device.GetUtilization, Device.GetTemperature,
          hu, ht]
      · rcases hw : d.powerUsage with _ | w
        · simp [telemetryLoop, upSetsFromNVML, Device.GetUtilization, Device.GetTemperature,
            Device.GetPowerUsage, hu, ht, hw]
        · rcases hm : d.memoryInfo with _ | mi
          · simp [telemetryLoop, upSetsFromNVML, Device.GetUtilization,
              Device.GetTemperature, Device.GetPowerUsage, Device.GetMemoryInfo,
              hu, ht, hw, hm]
          · simp only [telemetryLoop, upSetsFromNVML, Device.GetUtilization,
              Device.GetTemperature, Device.GetPowerUsage, Device.GetMemoryInfo,
              hu, ht, hw, hm, ih]
            rfl

theorem upSets_nil_or_zero (ds : List Device) :
    upSetsFromNVML ds = [] ∨ upSetsFromNVML ds = [0] := by
  induction ds with
  | nil => exact Or.inl rfl
  | cons d rest ih =>
    rcases hu : d.utilization with _ | u
    · exact Or.inr (by simp [upSetsFromNVML, Device.GetUtilization, hu])
    · rcases ht : d.temperature with _ | t
      · exact Or.inr (by simp [upSetsFromNVML, Device.GetUtilization, Device.GetTemperature,
          hu, ht])
      · rcases hw : d.powerUsage with _ | w
        · exact Or.inr (by simp [upSetsFromNVML, Device.GetUtilization,
            Device.GetTemperature, Device.GetPowerUsage, hu, ht, hw])
        · rcases hm : d.memoryInfo with _ | mi
          · exact Or.inr (by simp [upSetsFromNVML, Device.GetUtilization,
              Device.GetTemperature, Device.GetPowerUsage, Device.GetMemoryInfo,
              hu, ht, hw, hm])
          · rcases ih with h | h
            · exact Or.inl (by simp [upSetsFromNVML, Device.GetUtilization,
                Device.GetTemperature, Device.GetPowerUsage, Device.GetMemoryInfo,
                hu, ht, hw, hm, h])
            · exact Or.inr (by simp [upSetsFromNVML, Device.GetUtilization,
                Device.GetTemperature, Device.GetPowerUsage, Device.GetMemoryInfo,
                hu, ht, hw, hm, h])

theorem Collect_eq_runOps (e : Exporter) :
    Collect e = runOps { resetGauges e with up := 1 } (cycleOps e.devices) :=
  telemetryLoop_eq_runOps e.devices _

theorem deviceEntry_of_success {d : Device} (hd : deviceSucceeds d = true) (m : MetricName) :
    ∃ v, deviceEntry d m = some (labelValues d, v) := by
  obtain ⟨g, p, f, c, w, mi, hu, ht, hw, hm⟩ := deviceSucceeds_elim hd
  cases m
  case gpu_percent => exact ⟨g, by simp [deviceEntry, hu]⟩
  case memory_percent => exact ⟨p, by simp [deviceEntry, hu]⟩
  case temperature_fahrenheit => exact ⟨f, by simp [deviceEntry, ht]⟩
  case temperature_celsius => exact ⟨c, by simp [deviceEntry, ht]⟩
  case power_watts => exact ⟨w, by simp [deviceEntry, hw]⟩
  case memory_free => exact ⟨mi.Free, by simp [deviceEntry, hm]⟩
  case memory_total => exact ⟨mi.Total, by simp [deviceEntry, hm]⟩
  case memory_used => exact ⟨mi.Used, by simp [deviceEntry, hm]⟩

theorem filterMap_deviceEntry_fst (ds : List Device)
    (h : ∀ d ∈ ds, deviceSucceeds d = true) (m : MetricName) :
    (ds.filterMap (fun d => deviceEntry d m)).map Prod.fst = ds.map labelValues := by
  induction ds with
  | nil => rfl
  | cons d rest ih =>
    obtain ⟨v, hv⟩ := deviceEntry_of_success (h d (List.mem_cons_self _ _)) m
    simp [List.filterMap_cons, hv, ih fun d2 h2 => h d2 (List.mem_cons_of_mem _ h2)]

/-! ### Concrete scenario of spec §8 (claim C2) -/

/-- Device 0 of the spec §8 scenario: every query succeeds with the listed
values. -/
def scenarioDevice0 : Device :=
  { i := 0, DeviceUUID := "GPU-0", DeviceName := "Tesla K80",
    utilization := some (45, 60), temperature := some (167, 75),
    powerUsage := some 120,
    memoryInfo := some { Free := 1000000, Total := 4000000, Used := 3000000 } }

/-- Device 1 of the spec §8 scenario: utilization succeeds, the temperature
query fails (so power and memory are never queried). -/
def scenarioDevice1 : Device :=
  { i := 1, DeviceUUID := "GPU-1", DeviceName := "Tesla K80",
    utilization := some (10, 20), temperature := none,
    powerUsage := none, memoryInfo := none }

/-- The exporter of the spec §8 scenario, before the scrape. -/
def scenarioExporter : Exporter :=
  { up := 0, gauges := fun _ => [], devices := [scenarioDevice0, scenarioDevice1] }

/-- An exporter with a single fully successful device. -/
def successExporter : Exporter :=
  { up := 0, gauges := fun _ => [], devices := [scenarioDevice0] }

/-- A device whose very first query (utilization) fails. -/
def utilFailDevice : Device :=
  { i := 1, DeviceUUID := "GPU-1", DeviceName := "Tesla K80",
    utilization := none, temperature := none,
    powerUsage := none, memoryInfo := none }

/-- An exporter whose second device fails its utilization query. -/
def utilFailExporter : Exporter :=
  { up := 0, gauges := fun _ => [], devices := [scenarioDevice0, utilFailDevice] }

/-- An exporter with no devices at all. -/
def emptyExporter : Exporter :=
  { up := 0, gauges := fun _ => [], devices := [] }

/-- C7: `reset()` is idempotent: applying the gauge-vector reset twice yields
the same empty-but-shaped registry as applying it once, and after either
application every metric series is empty, with no residual entries from any
prior cycle. -/
theorem claim_C7_reset_idempotent (e : Exporter) :
    resetGauges (resetGauges e) = resetGauges e ∧
      ∀ m, (resetGauges e).gauges m = [] :=
  ⟨rfl, fun _ => rfl⟩

/-- C10: for the empty device list every cycle completes with the health gauge
equal to 1 and every metric series empty. -/
theorem claim_C10_empty_device_list (e : Exporter) (h : e.devices = []) :
    (Collect e).up = 1 ∧ ∀ m, (Collect e).gauges m = [] := by
  have h2 : Collect e = { resetGauges e with up := 1 } := by
    show telemetryLoop { resetGauges e with up := 1 } e.devices = _
    rw [h]
    rfl
  rw [h2]
  exact ⟨rfl, fun _ => rfl⟩

/-- Witness for C10: the concrete empty exporter. -/
theorem claim_C10_witness :
    (Collect emptyExporter).up = 1 ∧
      (Collect emptyExporter).gauges MetricName.gpu_percent = [] :=
  ⟨(claim_C10_empty_device_list emptyExporter rfl).1,
   (claim_C10_empty_device_list emptyExporter rfl).2 MetricName.gpu_percent⟩

/-- C2 counterexample: in the spec §8 scenario (device 0 fully successful,
device 1 failing its temperature query) the claim asserts that no series at
all exist for device 1's index in this cycle; but the cycle writes
`gpu_percent` for device 1 from its successful utilization query before the
temperature failure aborts, so a series with device 1's label triple does
exist. -/
theorem claim_C2_counterexample :
    ¬ (∀ m : MetricName, ∀ en ∈ (Collect scenarioExporter).gauges m,
        en.1 ≠ ["1", "GPU-1", "Tesla K80"]) := by
  intro h
  exact h MetricName.gpu_percent (["1", "GPU-1", "Tesla K80"], 10) (by decide) rfl

/-- C2 amended: in the spec §8 scenario the registry holds
`gpu_percent=45`, `memory_percent=60`, `power_watts=120`, the `memory_*` and
both temperature series for device 0, the `up` gauge equals 0, and device 1
has exactly the `gpu_percent` and `memory_percent` entries written by its
successful utilization query before the temperature failure — no temperature,
power or memory series. -/
theorem claim_C2_amended :
    (Collect scenarioExporter).up = 0 ∧
    (Collect scenarioExporter).gauges MetricName.gpu_percent =
      [(["0", "GPU-0", "Tesla K80"], 45), (["1", "GPU-1", "Tesla K80"], 10)] ∧
    (Collect scenarioExporter).gauges MetricName.memory_percent =
      [(["0", "GPU-0", "Tesla K80"], 60), (["1", "GPU-1", "Tesla K80"], 20)] ∧
    (Collect scenarioExporter).gauges MetricName.power_watts =
      [(["0", "GPU-0", "Tesla K80"], 120)] ∧
    (Collect scenarioExporter).gauges MetricName.memory_free =
      [(["0", "GPU-0", "Tesla K80"], 1000000)] ∧
    (Collect scenarioExporter).gauges MetricName.memory_total =
      [(["0", "GPU-0", "Tesla K80"], 4000000)] ∧
    (Collect scenarioExporter).gauges MetricName.memory_used =
      [(["0", "GPU-0", "Tesla K80"], 3000000)] ∧
    (Collect scenarioExporter).gauges MetricName.temperature_fahrenheit =
      [(["0", "GPU-0", "Tesla K80"], 167)] ∧
    (Collect scenarioExporter).gauges MetricName.temperature_celsius =
      [(["0", "GPU-0", "Tesla K80"], 75)] :=
  ⟨rfl, rfl, rfl, rfl, rfl, rfl, rfl, rfl, rfl⟩

/-- C3: for every device list and every cycle in which every query of every
device succeeds, the cycle ends with the health gauge equal to 1 and each of
the eight catalog metrics holding exactly one entry per enumerated device,
labeled with that device's (index, uuid, name) triple and carrying the queried
value.  (Identity triples are pairwise distinct in any real enumeration, where
`i` is the enumeration index; this is the `Nodup` hypothesis.) -/
theorem claim_C3_all_success (e : Exporter)
    (hsucc : ∀ d ∈ e.devices, deviceSucceeds d = true)
    (hnodup : (e.devices.map labelValues).Nodup) :
    (Collect e).up = 1 ∧
    ∀ m, (Collect e).gauges m = e.devices.filterMap (fun d => deviceEntry d m) ∧
      ((Collect e).gauges m).map Prod.fst = e.devices.map labelValues := by
  obtain ⟨hup, hg⟩ := runOps_cycleOps_success e.devices { resetGauges e with up := 1 }
    hsucc hnodup (fun m en h => by simp [resetGauges] at h)
  rw [Collect_eq_runOps]
  refine ⟨hup, fun m => ?_⟩
  have hgm : (runOps { resetGauges e with up := 1 } (cycleOps e.devices)).gauges m =
      e.devices.filterMap (fun d => deviceEntry d m) := by
    simpa [resetGauges] using hg m
  exact ⟨hgm, by rw [hgm, filterMap_deviceEntry_fst e.devices hsucc m]⟩

/-- Witness for C3: a single fully successful device. -/
theorem claim_C3_witness :
    (Collect successExporter).up = 1 ∧
    (Collect successExporter).gauges MetricName.gpu_percent =
      successExporter.devices.filterMap (fun d => deviceEntry d MetricName.gpu_percent) ∧
    ((Collect successExporter).gauges MetricName.gpu_percent).map Prod.fst =
      successExporter.devices.map labelValues :=
  ⟨(claim_C3_all_success successExporter (by decide) (by decide)).1,
   ((claim_C3_all_success successExporter (by decide) (by decide)).2 MetricName.gpu_percent).1,
   ((claim_C3_all_success successExporter (by decide) (by decide)).2 MetricName.gpu_percent).2⟩

/-- C1: for every device list and every cycle in which device k's utilization
query fails, all devices before it having fully succeeded, the cycle ends
with the health gauge at 0, every catalog metric populated exactly from the
earlier devices of this cycle (one entry per earlier device, with its queried
value), and no entries from this cycle for device k or any later device. -/
theorem claim_C1_utilization_failure (e : Exporter) (pre : List Device) (dk : Device)
    (post : List Device) (hdev : e.devices = pre ++ dk :: post)
    (hsucc : ∀ d ∈ pre, deviceSucceeds d = true)
    (hnodup : (pre.map labelValues).Nodup)
    (hfail : dk.utilization = none) :
    (Collect e).up = 0 ∧
    (∀ m, (Collect e).gauges m = pre.filterMap (fun d => deviceEntry d m)) ∧
    (∀ m d, d ∈ pre → ∃ v, (labelValues d, v) ∈ (Collect e).gauges m) ∧
    (∀ m, ∀ en ∈ (Collect e).gauges m, en.1 ∈ pre.map labelValues) := by
  have hfs : deviceSucceeds dk = false := by simp [deviceSucceeds, hfail]
  have hstep : Collect e =
      runOps (runOps { resetGauges e with up := 1 } (cycleOps pre)) [Op.setUp 0] := by
    rw [Collect_eq_runOps, hdev, cycleOps_append_of_success _ hsucc, runOps_append]
    have h2 : cycleOps (dk :: post) = [Op.setUp 0] := by
      simp [cycleOps, hfs, deviceOps, Device.GetUtilization, hfail]
    rw [h2]
  obtain ⟨hup, hg⟩ := runOps_cycleOps_success pre { resetGauges e with up := 1 }
    hsucc hnodup (fun m en h => by simp [resetGauges] at h)
  have hgauges : ∀ m, (Collect e).gauges m = pre.filterMap (fun d => deviceEntry d m) := by
    intro m
    rw [hstep]
    show (runOps { resetGauges e with up := 1 } (cycleOps pre)).gauges m = _
    simpa [resetGauges] using hg m
  refine ⟨by rw [hstep]; rfl, hgauges, ?_, ?_⟩
  · intro m d hd
    obtain ⟨v, hv⟩ := deviceEntry_of_success (hsucc d hd) m
    exact ⟨v, by rw [hgauges m]; exact List.mem_filterMap.mpr ⟨d, hd, hv⟩⟩
  · intro m en h
    rw [hgauges m] at h
    obtain ⟨d, hd, hde⟩ := List.mem_filterMap.mp h
    rw [deviceEntry_fst hde]
    exact List.mem_map_of_mem _ hd

/-- Witness for C1: device 0 fully succeeds, device 1 fails its utilization
query. -/
theorem claim_C1_witness :
    (Collect utilFailExporter).up = 0 ∧
    (Collect utilFailExporter).gauges MetricName.gpu_percent =
      [scenarioDevice0].filterMap (fun d => deviceEntry d MetricName.gpu_percent) ∧
    (∃ v, (labelValues scenarioDevice0, v) ∈
      (Collect utilFailExporter).gauges MetricName.gpu_percent) ∧
    (["0", "GPU-0", "Tesla K80"] : List String) ∈ [scenarioDevice0].map labelValues :=
  ⟨(claim_C1_utilization_failure utilFailExporter [scenarioDevice0] utilFailDevice []
      rfl (by decide) (by decide) rfl).1,
   (claim_C1_utilization_failure utilFailExporter [scenarioDevice0] utilFailDevice []
      rfl (by decide) (by decide) rfl).2.1 MetricName.gpu_percent,
   (claim_C1_utilization_failure utilFailExporter [scenarioDevice0] utilFailDevice []
      rfl (by decide) (by decide) rfl).2.2.1 MetricName.gpu_percent scenarioDevice0
      (by decide),
   (claim_C1_utilization_failure utilFailExporter [scenarioDevice0] utilFailDevice []
      rfl (by decide) (by decide) rfl).2.2.2 MetricName.gpu_percent
      (["0", "GPU-0", "Tesla K80"], 45) (by decide)⟩

/-- C4: when device k's temperature, power, or memory query is the first to
fail (after all earlier devices fully succeeded), the series already written
for device k by the earlier successful query classes of the same iteration
remain present in the registry when the cycle aborts: `gpu_percent` and
`memory_percent` after utilization; additionally both temperature series after
temperature; additionally `power_watts` after power. -/
theorem claim_C4_partial_device_entries (e : Exporter) (pre : List Device) (dk : Device)
    (post : List Device) (hdev : e.devices = pre ++ dk :: post)
    (hsucc : ∀ d ∈ pre, deviceSucceeds d = true)
    (g p : Int) (hu : dk.utilization = some (g, p)) :
    (dk.temperature = none →
      (labelValues dk, g) ∈ (Collect e).gauges MetricName.gpu_percent ∧
      (labelValues dk, p) ∈ (Collect e).gauges MetricName.memory_percent) ∧
    (∀ f c, dk.temperature = some (f, c) → dk.powerUsage = none →
      (labelValues dk, g) ∈ (Collect e).gauges MetricName.gpu_percent ∧
      (labelValues dk, p) ∈ (Collect e).gauges MetricName.memory_percent ∧
      (labelValues dk, c) ∈ (Collect e).gauges MetricName.temperature_celsius ∧
      (labelValues dk, f) ∈ (Collect e).gauges MetricName.temperature_fahrenheit) ∧
    (∀ f c w, dk.temperature = some (f, c) → dk.powerUsage = some w →
      dk.memoryInfo = none →
      (labelValues dk, g) ∈ (Collect e).gauges MetricName.gpu_percent ∧
      (labelValues dk, p) ∈ (Collect e).gauges MetricName.memory_percent ∧
      (labelValues dk, c) ∈ (Collect e).gauges MetricName.temperature_celsius ∧
      (labelValues dk, f) ∈ (Collect e).gauges MetricName.temperature_fahrenheit ∧
      (labelValues dk, w) ∈ (Collect e).gauges MetricName.power_watts) := by
  have hsplit : deviceSucceeds dk = false →
      Collect e = runOps (runOps { resetGauges e with up := 1 } (cycleOps pre))
        (deviceOps dk) := by
    intro hf
    rw [Collect_eq_runOps, hdev, cycleOps_append_of_success _ hsucc, runOps_append]
    have h2 : cycleOps (dk :: post) = deviceOps dk := by simp [cycleOps, hf]
    rw [h2]
  refine ⟨?_, ?_, ?_⟩
  · intro ht
    rw [hsplit (by simp [deviceSucceeds, ht])]
    have hops : deviceOps dk =
        [Op.set MetricName.gpu_percent (labelValues dk) g,
         Op.set MetricName.memory_percent (labelValues dk) p, Op.setUp 0] := by
      simp [deviceOps, Device.GetUtilization, Device.GetTemperature, hu, ht]
    rw [hops]
    constructor <;>
      · simp only [runOps, applyOp, Exporter.setValue]
        simp
        exact mem_setEntry_self _ _ _
  · intro f c ht hw
    rw [hsplit (by simp [deviceSucceeds, hw])]
    have hops : deviceOps dk =
        [Op.set MetricName.gpu_percent (labelValues dk) g,
         Op.set MetricName.memory_percent (labelValues dk) p,
         Op.set MetricName.temperature_celsius (labelValues dk) c,
         Op.set MetricName.temperature_fahrenheit (labelValues dk) f, Op.setUp 0] := by
      simp [deviceOps, Device.GetUtilization, Device.GetTemperature,
        Device.GetPowerUsage, hu, ht, hw]
    rw [hops]
    refine ⟨?_, ?_, ?_, ?_⟩ <;>
      · simp only [runOps, applyOp, Exporter.setValue]
        simp
        exact mem_setEntry_self _ _ _
  · intro f c w ht hw hm
    rw [hsplit (by simp [deviceSucceeds, hm])]
    have hops : deviceOps dk =
        [Op.set MetricName.gpu_percent (labelValues dk) g,
         Op.set MetricName.memory_percent (labelValues dk) p,
         Op.set MetricName.temperature_celsius (labelValues dk) c,
         Op.set MetricName.temperature_fahrenheit (labelValues dk) f,
         Op.set MetricName.power_watts (labelValues dk) w, Op.setUp 0] := by
      simp [deviceOps, Device.GetUtilization, Device.GetTemperature,
        Device.GetPowerUsage, Device.GetMemoryInfo, hu, ht, hw, hm]
    rw [hops]
    refine ⟨?_, ?_, ?_, ?_, ?_⟩ <;>
      · simp only [runOps, applyOp, Exporter.setValue]
        simp
        exact mem_setEntry_self _ _ _

/-- Witness for C4: the spec §8 scenario, where device 1's temperature query
is the first to fail after a successful utilization query. -/
theorem claim_C4_witness :
    (labelValues scenarioDevice1, (10 : Int)) ∈
      (Collect scenarioExporter).gauges MetricName.gpu_percent ∧
    (labelValues scenarioDevice1, (20 : Int)) ∈
      (Collect scenarioExporter).gauges MetricName.memory_percent :=
  (claim_C4_partial_device_entries scenarioExporter [scenarioDevice0] scenarioDevice1 []
    rfl (by decide) 10 20 rfl).1 rfl

/-- C5: within every cycle the `up` gauge is assigned 1 first (right after the
reset, before any device query), is assigned 0 exactly when some device query
fails (the trace is `[1]` on a clean cycle and `[1, 0]` on an aborted one),
never goes back from 0 to 1 within the cycle (the assignment trace is
non-increasing), the final registry value of `up` is the last assignment of
the trace, and the `up` gauge is present in the channel output of every
scrape, completed or aborted. -/
theorem claim_C5_health_gauge_temporal (e : Exporter) :
    (cycleUpTrace e.devices).head? = some 1 ∧
    List.Chain' (fun a b => a ≥ b) (cycleUpTrace e.devices) ∧
    (cycleUpTrace e.devices = [1] ∨ cycleUpTrace e.devices = [1, 0]) ∧
    (cycleUpTrace e.devices).getLast? = some ((Collect e).up) ∧
    Msg.up ((Collect e).up) ∈ collectOutput e := by
  have hup : (Collect e).up = if upSetsFromNVML e.devices = [] then 1 else 0 :=
    telemetryLoop_up e.devices { resetGauges e with up := 1 }
  have hmem : Msg.up ((Collect e).up) ∈ collectOutput e := by
    rw [collectOutput]
    exact List.mem_append_right _ (List.mem_singleton.mpr rfl)
  rcases upSets_nil_or_zero e.devices with h | h <;>
    refine ⟨rfl, ?_, ?_, ?_, hmem⟩
  · rw [cycleUpTrace, h]; exact List.chain'_singleton 1
  · exact Or.inl (by rw [cycleUpTrace, h])
  · rw [cycleUpTrace, h, hup, if_pos h]; rfl
  · rw [cycleUpTrace, h]; exact List.chain'_pair.mpr (by norm_num)
  · exact Or.inr (by rw [cycleUpTrace, h])
  · rw [cycleUpTrace, h, hup, if_neg (by simp [h])]; rfl

/-- C8: at every point in every cycle each (metric name, identity) pair maps
to at most one registry value (the label-tuple keys of every gauge vector stay
pairwise distinct after every prefix of the cycle's mutations), and no entry
from a previous cycle for a device absent from this cycle's enumeration
survives: every entry of the exported snapshot carries the label triple of a
currently enumerated device, whatever the registry held before. -/
theorem claim_C8_registry_invariants (e : Exporter) :
    Collect e = runOps { resetGauges e with up := 1 } (cycleOps e.devices) ∧
    (∀ n m, ((((runOps { resetGauges e with up := 1 }
        ((cycleOps e.devices).take n)).gauges m).map Prod.fst)).Nodup) ∧
    (∀ m, ∀ en ∈ (Collect e).gauges m, en.1 ∈ e.devices.map labelValues) := by
  refine ⟨Collect_eq_runOps e, ?_, ?_⟩
  · intro n m
    exact runOps_nodup_keys _ _ (fun _ => by simp [resetGauges]) m
  · intro m en hmem
    rw [Collect_eq_runOps] at hmem
    refine runOps_labels (fun ls => ls ∈ e.devices.map labelValues) (cycleOps e.devices)
      { resetGauges e with up := 1 } ?_ ?_ m en hmem
    · intro o ho m2 ls v ho2
      obtain ⟨d, hd, h2⟩ := cycleOps_labels e.devices o ho m2 ls v ho2
      rw [h2]
      exact List.mem_map_of_mem _ hd
    · intro m2 en2 h2
      simp [resetGauges] at h2

/-- Witness for C8: in the spec §8 scenario, the entry found in `gpu_percent`
for device 1 indeed carries the label triple of an enumerated device. -/
theorem claim_C8_witness :
    (["1", "GPU-1", "Tesla K80"] : List String) ∈
      scenarioExporter.devices.map labelValues :=
  (claim_C8_registry_invariants scenarioExporter).2.2 MetricName.gpu_percent
    (["1", "GPU-1", "Tesla K80"], 10) (by decide)

/-- C9: every series entry written for a device-scoped metric carries exactly
three label values — the device index as its decimal string, the uuid, and the
name, in that fixed order — matching the label schema the catalog declares for
that metric. -/
theorem claim_C9_label_schema (e : Exporter) (m : MetricName) (en : Entry)
    (h : en ∈ (Collect e).gauges m) :
    (∃ d, d ∈ e.devices ∧ en.1 = labelValues d) ∧
    en.1.length = (gaugeMetrics m).labels.length ∧
    (gaugeMetrics m).labels = ["device_id", "device_uuid", "device_name"] := by
  have hd : ∃ d, d ∈ e.devices ∧ en.1 = labelValues d := by
    rw [Collect_eq_runOps] at h
    refine runOps_labels (fun ls => ∃ d, d ∈ e.devices ∧ ls = labelValues d)
      (cycleOps e.devices) { resetGauges e with up := 1 } ?_ ?_ m en h
    · intro o ho m2 ls v ho2
      exact cycleOps_labels e.devices o ho m2 ls v ho2
    · intro m2 en2 h2
      simp [resetGauges] at h2
  refine ⟨hd, ?_, ?_⟩
  · obtain ⟨d, _, h2⟩ := hd
    rw [h2]
    cases m <;> rfl
  · cases m <;> rfl

/-- Witness for C9: the `power_watts` entry of device 0 in the spec §8
scenario. -/
theorem claim_C9_witness :
    (∃ d, d ∈ scenarioExporter.devices ∧
      (["0", "GPU-0", "Tesla K80"] : List String) = labelValues d) ∧
    (["0", "GPU-0", "Tesla K80"] : List String).length =
      (gaugeMetrics MetricName.power_watts).labels.length ∧
    (gaugeMetrics MetricName.power_watts).labels =
      ["device_id", "device_uuid", "device_name"] :=
  claim_C9_label_schema scenarioExporter MetricName.power_watts
    (["0", "GPU-0", "Tesla K80"], 120) (by decide)
